import Mathlib

/-!
Shallow embedding of `src/PostgresDB2.py` (class `PostgresDatabase`) and
theorems checking the natural-language specification against it.

Python dictionaries are modelled as association lists in insertion order,
Python strings as Lean `String` (with character-level operations on `.data`
where the source indexes single characters), Python bytes as `List Nat`,
and the filesystem as a partial map from path to bytes.  Exceptions are
modelled with `Except`; methods that mutate `self` return the new state
explicitly, and a method that can raise after mutating returns the state
it reached together with the `Except` outcome.
-/

namespace PostgresDB2

/-- A value that can appear in a `value_dict`: a Python `str`, a number
(Python `int`; floats in the scripts are irrelevant to the claims), or a
`psycopg2.Binary` payload. -/
inductive Value where
  | vstr (s : String)
  | vint (n : Int)
  | vbin (b : List Nat)
deriving DecidableEq, Repr

/-- The error kinds raised by the Python code, named as in the spec's
error-handling section: `schemaError` is the `AssertionError` from
`_check_schema` ("Invalid column name in the value dictionary" /
"Table name is not in the database"), `missingFileError` the
`AssertionError` from `insert_row_with_image` ("The path ... is invalid"),
`assertionError` the one from the missing `filepath` key, `indexError` a
Python `IndexError` (subscripting an empty string), `typeError` a Python
`TypeError` (subscripting a non-string, or calling a function with the
wrong number of arguments), `keyError` a Python `KeyError` / missing
column, `fileNotFoundError` the `FileNotFoundError` from `open`, and
`invalidColumnError` the `AssertionError` from `download_data` line 161
("Invalid column name in label column names"). -/
inductive PyErr where
  | schemaError
  | missingFileError
  | assertionError
  | indexError
  | typeError
  | keyError
  | fileNotFoundError
  | invalidColumnError
deriving DecidableEq, Repr

/-- The single-quote character `'` (code point 39), the quote delimiter
used throughout `PostgresDB2.py`. -/
def squoChar : Char := Char.ofNat 39

/-- The single-quote character as a one-character string. -/
def squo : String := String.mk [squoChar]

/-- `val.replace("'", "''")` from `insert_row` line 94, character by
character (the pattern is the single character `'`, so Python's
`str.replace` doubles every occurrence). -/
def escChars : List Char → List Char
  | [] => []
  | c :: cs => if c = squoChar then squoChar :: squoChar :: escChars cs else c :: escChars cs

/-- `str(val)` as used by `insert_row` line 95 for non-string values:
Python's default string conversion.  `psycopg2.Binary` renders as a
`bytea` literal; its exact text is irrelevant to the claims, we keep the
byte list abstractly in the rendering. -/
def pyStr : Value → String
  | .vstr s => s
  | .vint n => toString n
  | .vbin b => "<bytea:" ++ toString b ++ ">"

/-- The value serialization of `insert_row` lines 93–95: a string value is
enclosed in single quotes with internal single quotes doubled
(`"'" + val.replace("'", "''") + "'"`), any other value is rendered with
`str(val)`. -/
def serializeValue : Value → String
  | .vstr s => String.mk (squoChar :: (escChars s.data ++ [squoChar]))
  | v => pyStr v

/-- SQL lexing of the body of a single-quoted string literal: a doubled
quote stands for one quote character, a single quote closes the literal
(anything after it would be trailing junk, rejected), an unterminated
literal is rejected. -/
def sqlLexBody : List Char → Option (List Char)
  | [] => none
  | [c] => if c = squoChar then some [] else none
  | c :: c2 :: cs =>
      if c = squoChar then
        if c2 = squoChar then (sqlLexBody cs).map (fun r => squoChar :: r)
        else none
      else (sqlLexBody (c2 :: cs)).map (fun r => c :: r)

/-- SQL unescaping of a complete single-quoted string literal: strip the
outer quotes and undouble internal quotes.  `none` when the input is not
a well-formed quoted literal. -/
def sqlUnescape (s : String) : Option String :=
  match s.data with
  | c :: rest => if c = squoChar then (sqlLexBody rest).map String.mk else none
  | [] => none

/-- One column of `get_schema`'s result: `(column_name, data_type,
character_maximum_length)` from `information_schema.columns`. -/
structure Column where
  name : String
  dataType : String
  maxLen : Option Nat
deriving DecidableEq, Repr

/-- `schema_dict = {col[0]: col[1] for col in schema}` from
`_check_schema` line 245 (column names are unique per table, so first
match equals Python's last-wins dict). -/
def schemaDict (schema : List Column) : List (String × String) :=
  schema.map fun c => (c.name, c.dataType)

/-- Lines 251–252 of `_check_schema`: `if new_val[0] != "'":
new_val = "'" + new_val` (on the character list of a non-empty value). -/
def wrapFront (l : List Char) : List Char :=
  if l.head? = some squoChar then l else squoChar :: l

/-- Lines 253–254 of `_check_schema`: `if new_val[-1] != "'":
new_val += "'"` (applied after `wrapFront`). -/
def wrapBack (l : List Char) : List Char :=
  if l.getLast? = some squoChar then l else l ++ [squoChar]

/-- The quote normalization `_check_schema` applies to a (non-empty)
`character varying` value: a quote delimiter is added on whichever side
was missing. -/
def wrapQuotes (s : String) : String :=
  String.mk (wrapBack (wrapFront s.data))

/-- The body of `_check_schema`'s loop for one entry of the value dict
(lines 246–255): assert the column name is in the schema; for a
`character varying` column subscript the value's first and last character
(raising `IndexError` on the empty string and `TypeError` on a
non-string) and add a quote delimiter on each side that lacks one. -/
def checkEntry (d : List (String × String)) (p : String × Value) : Except PyErr (String × Value) :=
  match d.lookup p.1 with
  | none => .error .schemaError
  | some ty =>
      if ty = "character varying" then
        match p.2 with
        | .vstr s =>
            match s.data with
            | [] => .error .indexError
            | _ => .ok (p.1, .vstr (wrapQuotes s))
        | _ => .error .typeError
      else .ok p

/-- `_check_schema`'s loop over the entries of the value dict, in
insertion order, stopping at the first failure and returning the
normalized dict (the in-place mutation of `value_dict` is modelled by
returning the updated association list). -/
def checkList (d : List (String × String)) : List (String × Value) → Except PyErr (List (String × Value))
  | [] => .ok []
  | p :: rest =>
      match checkEntry d p with
      | .error e => .error e
      | .ok q =>
          match checkList d rest with
          | .error e => .error e
          | .ok qs => .ok (q :: qs)

/-- `_check_schema(table_name, value_dict)` lines 237–255: assert the
table is in the database, build the schema dict from the live schema, and
run the per-entry loop. -/
def checkSchema (tables : List String) (schema : List Column) (tableName : String)
    (values : List (String × Value)) : Except PyErr (List (String × Value)) :=
  if tableName ∈ tables then checkList (schemaDict schema) values
  else .error .schemaError

/-- A statement executed on the cursor: its SQL text and the parameters
passed separately (only `_upload_image` and `_download_image` use
parameters; the other methods interpolate into the text). -/
structure SqlStmt where
  text : String
  params : List Value
deriving DecidableEq, Repr

/-- A queued element of `self.uncommitted_image_paths`: the triple
`(local_filepath, remote_filepath, remote_filename)`. -/
structure Upload where
  localFilepath : String
  remoteFilepath : String
  remoteFilename : String
deriving DecidableEq, Repr

/-- The mutable state of a `PostgresDatabase` object together with its
connection: `pending` are the statements executed on the cursor since the
last `connection.commit()`, `durable` the statements made durable by the
commits so far, `uncommittedImagePaths` is `self.uncommitted_image_paths`. -/
structure PGState where
  pending : List SqlStmt
  durable : List SqlStmt
  uncommittedImagePaths : List Upload
deriving DecidableEq, Repr

/-- `self.cursor.execute(stmt)`: the statement joins the uncommitted
transaction. -/
def execStmt (st : PGState) (s : SqlStmt) : PGState :=
  { st with pending := st.pending ++ [s] }

/-- `self.connection.commit()`: everything executed so far becomes
durable. -/
def connCommit (st : PGState) : PGState :=
  { st with durable := st.durable ++ st.pending, pending := [] }

/-- The filesystem as seen by `open(path, 'rb')` / `os.path.isfile`: a
partial map from local path to file bytes. -/
def FileSystem := String → Option (List Nat)

/-- The INSERT statement built by `insert_row` lines 97–106 from the
(already checked and normalized) value dict. -/
def insertStatement (tableName : String) (checked : List (String × Value)) : SqlStmt :=
  { text := "\n            INSERT INTO " ++ tableName ++ " ("
        ++ String.intercalate ", " (checked.map Prod.fst)
        ++ ")\n            VALUES ("
        ++ String.intercalate ", " (checked.map fun p => serializeValue p.2)
        ++ ")\n            "
    params := [] }

/-- `insert_row(table_name, value_dict)` lines 79–106: run
`_check_schema` (which normalizes the dict in place), serialize each
value, and execute the INSERT (uncommitted).  On a check failure the
exception propagates before any statement is executed. -/
def insert_row (tables : List String) (schema : List Column) (st : PGState)
    (tableName : String) (values : List (String × Value)) :
    PGState × Except PyErr (List (String × Value)) :=
  match checkSchema tables schema tableName values with
  | .error e => (st, .error e)
  | .ok checked => (execStmt st (insertStatement tableName checked), .ok checked)

/-- Python dict assignment `d[k] = v`: update the entry in place when the
key is present, append it otherwise. -/
def dictSet (d : List (String × Value)) (k : String) (v : Value) : List (String × Value) :=
  if d.any fun p => p.1 = k then d.map fun p => if p.1 = k then (p.1, v) else p
  else d ++ [(k, v)]

/-- The `SELECT max({image_id_col}) FROM {table_name}` query of
`insert_row_with_image` line 133. -/
def selectMaxStmt (imageIdCol tableName : String) : SqlStmt :=
  { text := "SELECT max(" ++ imageIdCol ++ ") FROM " ++ tableName, params := [] }

/-- `insert_row_with_image(table_name, value_dict, image_id_col)` lines
109–138: assert a `filepath` entry exists and names an existing local
file, read its bytes, set `value_dict["image_data"]` to the binary
payload, insert the row, re-query `max(image_id_col)` and commit the
connection (bypassing the pending-upload queue).  The returned identifier
comes from the database, modelled by the oracle `maxId` applied to the
state at query time (`or 0` maps a NULL result to 0 inside the oracle). -/
def insert_row_with_image (fs : FileSystem) (tables : List String) (schema : List Column)
    (maxId : PGState → Nat) (st : PGState) (tableName : String)
    (values : List (String × Value)) (imageIdCol : String) :
    PGState × Except PyErr Nat :=
  match values.lookup "filepath" with
  | none => (st, .error .assertionError)
  | some (.vstr localFilepath) =>
      match fs localFilepath with
      | none => (st, .error .missingFileError)
      | some binaryData =>
          match insert_row tables schema st tableName (dictSet values "image_data" (.vbin binaryData)) with
          | (st2, .error e) => (st2, .error e)
          | (st2, .ok _) =>
              let st3 := execStmt st2 (selectMaxStmt imageIdCol tableName)
              (connCommit st3, .ok (maxId st3))
  | some _ => (st, .error .typeError)

/-- The parameterized INSERT of `_upload_image` line 266, with the
`(local_filepath, Binary(binary_data))` parameters of line 267 (note the
source stores the LOCAL filepath and ignores its `remote_*` arguments
beyond the queue). -/
def uploadInsertStmt (localFilepath : String) (binaryData : List Nat) : SqlStmt :=
  { text := "INSERT INTO images (filepath, image_data) VALUES (%s, %s)"
    params := [.vstr localFilepath, .vbin binaryData] }

/-- `_upload_image(local_filepath, remote_filpath, remote_filename)`
lines 257–268: open and read the local file (raising
`FileNotFoundError` when it is gone), execute the parameterized INSERT
and commit the connection. -/
def uploadImage (fs : FileSystem) (st : PGState) (u : Upload) : PGState × Except PyErr Unit :=
  match fs u.localFilepath with
  | none => (st, .error .fileNotFoundError)
  | some binaryData => (connCommit (execStmt st (uploadInsertStmt u.localFilepath binaryData)), .ok ())

/-- The loop of `commit` lines 43–47 over `self.uncommitted_image_paths`:
upload each queued triple in order; the first exception aborts the rest
of the loop and propagates. -/
def flushUploads (fs : FileSystem) (st : PGState) : List Upload → PGState × Except PyErr Unit
  | [] => (st, .ok ())
  | u :: rest =>
      match uploadImage fs st u with
      | (st2, .ok _) => flushUploads fs st2 rest
      | (st2, .error e) => (st2, .error e)

/-- `commit()` lines 36–48: commit the connection, then flush the
pending-upload queue in order; only when the whole loop succeeds is
`self.uncommitted_image_paths` reset to `[]` (line 48 is unreachable
when an upload raises). -/
def commit (fs : FileSystem) (st : PGState) : PGState × Except PyErr Unit :=
  let st1 := connCommit st
  match flushUploads fs st1 st1.uncommittedImagePaths with
  | (st2, .ok _) => ({ st2 with uncommittedImagePaths := [] }, .ok ())
  | (st2, .error e) => (st2, .error e)

/-- A row of the `test_images` table in the column order assumed by
`_download_image` lines 285–289: `(image_id, x_res, y_res,
image_data_size, filepath)` at indices 0–4. -/
structure ImageRow where
  imageId : Value
  xRes : Value
  yRes : Value
  dataSize : Value
  filepath : String
deriving DecidableEq, Repr

/-- The hard-coded output file of `_download_image` line 284. -/
def outputFileName : String := "testOutput.txt"

/-- The lines appended for one found row by `_download_image` lines
285–290, separator included. -/
def downloadImageRecord (r : ImageRow) : List String :=
  [ "Image ID: " ++ pyStr r.imageId
  , "X Resolution: " ++ pyStr r.xRes
  , "Y Resolution: " ++ pyStr r.yRes
  , "Image Data Size: " ++ pyStr r.dataSize ++ " bytes"
  , "Filepath: " ++ r.filepath
  , String.mk (List.replicate 30 (Char.ofNat 45)) ]

/-- `_download_image(remote_filename)` lines 271–290: select the first
row of `test_images` whose `filepath` equals the argument; when none
matches, print a miss and write nothing; otherwise append the
fixed-format record to `testOutput.txt` (mode `'a'`).  The result is the
list of `(file, lines)` appends performed. -/
def downloadImage (testImages : List ImageRow) (remoteFilename : String) :
    List (String × List String) :=
  match testImages.find? fun r => r.filepath = remoteFilename with
  | none => []
  | some row => [(outputFileName, downloadImageRecord row)]

/-- `row[column_names[name]]`: look the column's index up in the
name→index dict and index into the row tuple; `none` models the
`KeyError`/`IndexError` a missing column would raise. -/
def cellValue (columnNames : List (String × Nat)) (row : List Value) (name : String) :
    Option Value :=
  (columnNames.lookup name).bind row.get?

/-- The label line of `_download_data_yolo` line 213:
`" ".join([str(row[column_names[name]]) for name in label_column_names])`. -/
def labelLine (columnNames : List (String × Nat)) (labelColumnNames : List String)
    (row : List Value) : Option String :=
  (labelColumnNames.mapM (cellValue columnNames row)).map fun vs =>
    String.intercalate " " (vs.map pyStr)

/-- `label_dict[image_id_val] += label + "\n"` on a `defaultdict(str)`,
keeping Python dict insertion order: append to the existing entry's
string, or add a new entry at the end. -/
def updLabelDict (acc : List (Value × String)) (k : Value) (txt : String) :
    List (Value × String) :=
  if acc.any fun p => p.1 = k then
    acc.map fun p => if p.1 = k then (p.1, p.2 ++ txt) else p
  else acc ++ [(k, txt)]

/-- Lines 210–211 of `_download_data_yolo`: remember the `filepath`
column of the FIRST row seen for each image identifier. -/
def updImagePaths (acc : List (Value × String)) (k : Value) (path : String) :
    List (Value × String) :=
  if acc.any fun p => p.1 = k then acc else acc ++ [(k, path)]

/-- One iteration of the grouping loop of `_download_data_yolo` lines
208–214, producing the updated `(image_remote_filepaths, label_dict)`
pair.  The `filepath` cell must be a string (it is split on `"."` later);
`none` models the exception a missing column or non-string path raises. -/
def yoloStep (columnNames : List (String × Nat)) (labelColumnNames : List String)
    (imageId : String) (acc : List (Value × String) × List (Value × String))
    (row : List Value) : Option (List (Value × String) × List (Value × String)) := do
  let idVal ← cellValue columnNames row imageId
  let fpVal ← cellValue columnNames row "filepath"
  match fpVal with
  | .vstr fp =>
      let line ← labelLine columnNames labelColumnNames row
      return (updImagePaths acc.1 idVal fp, updLabelDict acc.2 idVal (line ++ "\n"))
  | _ => none

/-- The grouping phase of `_download_data_yolo` lines 206–214 over all
fetched rows. -/
def buildYolo (records : List (List Value)) (labelColumnNames : List String)
    (columnNames : List (String × Nat)) (imageId : String) :
    Option (List (Value × String) × List (Value × String)) :=
  records.foldlM (yoloStep columnNames labelColumnNames imageId) ([], [])

/-- `"." + path.split(".")[-1]` from line 227: `str.split` always
returns a non-empty list, so `[-1]` is its last element. -/
def extensionOf (path : String) : String :=
  "." ++ (path.splitOn ".").getLastD ""

/-- Line 228 of `_download_data_yolo` calls
`self._download_image(output_path + "images/" + str(image_id_val) + image_extension, path)`
with TWO positional arguments, but `_download_image` (line 271) accepts
only `remote_filename`; CPython raises `TypeError` at the call without
running the callee. -/
def callDownloadImageTwoArgs (_dst _src : String) : Except PyErr Unit :=
  .error .typeError

/-- The "Downloading images" loop of `_download_data_yolo` lines
224–228: every iteration makes the two-argument call of line 228. -/
def downloadYoloImagesLoop (outputPath : String) :
    List (Value × String) → Except PyErr Unit
  | [] => .ok ()
  | (idVal, path) :: rest =>
      match callDownloadImageTwoArgs (outputPath ++ "images/" ++ pyStr idVal ++ extensionOf path) path with
      | .error e => .error e
      | .ok _ => downloadYoloImagesLoop outputPath rest

/-- `output_path[-1] != "/"` normalization of lines 216–217 (an empty
output path would raise `IndexError`). -/
def normalizeOutputPath (outputPath : String) : Except PyErr String :=
  match outputPath.data.getLast? with
  | none => .error .indexError
  | some c => .ok (if c = Char.ofNat 47 then outputPath else outputPath ++ "/")

/-- `_download_data_yolo(records, label_column_names, column_names,
output_path, image_id)` lines 196–235: group the rows, ensure the
`images/` and `labels/` directories, run the image-download loop (which
raises on its first iteration, see `callDownloadImageTwoArgs`), then
write each accumulated label text to `labels/<id>.txt` with mode `'w'`.
The result is the list of `(file, contents)` overwrites performed by the
label loop. -/
def downloadDataYolo (records : List (List Value)) (labelColumnNames : List String)
    (columnNames : List (String × Nat)) (outputPath : String) (imageId : String) :
    Except PyErr (List (String × String)) :=
  match buildYolo records labelColumnNames columnNames imageId with
  | none => .error .keyError
  | some (imagePaths, labelDict) =>
      match normalizeOutputPath outputPath with
      | .error e => .error e
      | .ok op =>
          match downloadYoloImagesLoop op imagePaths with
          | .error e => .error e
          | .ok _ => .ok (labelDict.map fun p => (op ++ "labels/" ++ pyStr p.1 ++ ".txt", p.2))

/-- `temp_table_name = images_table_name + "_" + labels_table_name + "_tmp"`
from `join_and_download_data` line 181. -/
def tempTableName (imagesTableName labelsTableName : String) : String :=
  imagesTableName ++ "_" ++ labelsTableName ++ "_tmp"

/-- The DROP-IF-EXISTS plus SELECT-INTO-JOIN statement built by
`join_and_download_data` lines 182–191, verbatim. -/
def joinStatement (imagesTableName labelsTableName imageId : String) : String :=
  let t := tempTableName imagesTableName labelsTableName
  "\n            DROP TABLE IF EXISTS " ++ t ++ ";\n            SELECT *\n                INTO "
    ++ t ++ "\n                FROM " ++ imagesTableName ++ "\n                JOIN "
    ++ labelsTableName ++ "\n                USING (" ++ imageId ++ ")\n            "

/-- `filter_sql.append(...)` of `join_and_download_data` line 182: the
caller's list after the call (the in-place mutation is modelled by
returning the extended list). -/
def joinAndDownloadFilters (imagesTableName labelsTableName imageId : String)
    (filterSql : List String) : List String :=
  filterSql ++ [joinStatement imagesTableName labelsTableName imageId]

/-- An observable action of the export pipeline: executing one SQL
string, or the full `self.commit()` (connection commit plus upload
flush). -/
inductive DbAction where
  | exec (s : String)
  | commitAll
deriving DecidableEq, Repr

/-- Line 161 of `download_data`:
`all([name in column_names for name in label_column_names])`. -/
def labelColumnsValid (columnNames : List (String × Nat)) (labelColumnNames : List String) : Bool :=
  labelColumnNames.all fun n => (columnNames.lookup n).isSome

/-- What `download_data` does after the fetch (lines 160–164): the
line-161 assert raises `InvalidColumnError` when a requested label column
is missing; then, for `format_type == "yolo"`, whatever
`_download_data_yolo` raises propagates; any other format type does
nothing.  The fetched `records` and the cursor's name→index map are
oracles for what the database returned for the table. -/
def downloadDataOutcome (records : List (List Value)) (columnNames : List (String × Nat))
    (labelColumnNames : List String) (outputPath : String) (formatType : String)
    (imageId : String) : Option PyErr :=
  if labelColumnsValid columnNames labelColumnNames then
    if formatType = "yolo" then
      match downloadDataYolo records labelColumnNames columnNames outputPath imageId with
      | .error e => some e
      | .ok _ => none
    else none
  else some .invalidColumnError

/-- `download_data` lines 154–164 as a statement/commit trace plus its
outcome: the filter statements in order, `self.commit()`, the SELECT of
the whole table — then the label-column assert and the format-specific
materialization, whose exception (if any) propagates to the caller. -/
def downloadDataRun (tableName : String) (filterSql : List String)
    (records : List (List Value)) (columnNames : List (String × Nat))
    (labelColumnNames : List String) (outputPath : String) (formatType : String)
    (imageId : String) : List DbAction × Option PyErr :=
  (filterSql.map DbAction.exec ++ [.commitAll, .exec ("SELECT * FROM " ++ tableName)],
   downloadDataOutcome records columnNames labelColumnNames outputPath formatType imageId)

/-- `join_and_download_data` lines 181–194 as a trace: extend the filter
list, run `download_data` on the temporary table; only when it returns
normally do lines 193–194 run (the DROP of the temporary table, then
`self.commit()`) — an exception from the export propagates to the caller
and skips them both. -/
def joinAndDownloadRun (imagesTableName labelsTableName imageId : String)
    (filterSql : List String) (records : List (List Value))
    (columnNames : List (String × Nat)) (labelColumnNames : List String)
    (outputPath : String) (formatType : String) : List DbAction × Option PyErr :=
  match downloadDataRun (tempTableName imagesTableName labelsTableName)
      (joinAndDownloadFilters imagesTableName labelsTableName imageId filterSql)
      records columnNames labelColumnNames outputPath formatType imageId with
  | (acts, none) =>
      (acts ++ [.exec ("DROP TABLE " ++ tempTableName imagesTableName labelsTableName),
          .commitAll], none)
  | (acts, some e) => (acts, some e)

/-- The state of the shared default `filter_sql=[]` list after `n`
successive calls of `join_and_download_data` that omit the argument
(Python evaluates the default once, so every such call mutates the same
list object). -/
def sharedDefaultAfter (imagesTableName labelsTableName imageId : String) : Nat → List String
  | 0 => []
  | n + 1 => joinAndDownloadFilters imagesTableName labelsTableName imageId
      (sharedDefaultAfter imagesTableName labelsTableName imageId n)

/-- The INSERT statements issued by flushing a list of queued uploads in
order (each reads the local file at flush time). -/
def uploadsStmts (fs : FileSystem) (us : List Upload) : List SqlStmt :=
  us.map fun u => uploadInsertStmt u.localFilepath ((fs u.localFilepath).getD [])


/-! ## Helper lemmas -/

theorem sqlLexBody_escChars (l : List Char) :
    sqlLexBody (escChars l ++ [squoChar]) = some l := by
  induction l with
  | nil => simp [escChars, sqlLexBody]
  | cons c cs ih =>
      by_cases hc : c = squoChar
      · subst hc
        simp only [escChars, if_pos rfl, List.cons_append]
        simp [sqlLexBody, ih]
      · obtain ⟨d, ds, hds⟩ : ∃ d ds, escChars cs ++ [squoChar] = d :: ds := by
          cases h : escChars cs ++ [squoChar] with
          | nil => exact absurd h (by simp)
          | cons d ds => exact ⟨d, ds, rfl⟩
        simp only [escChars, if_neg hc, List.cons_append, hds]
        simp [sqlLexBody, hc, ← hds, ih]

theorem sqlUnescape_serializeValue (s : String) :
    sqlUnescape (serializeValue (.vstr s)) = some s := by
  show sqlUnescape (String.mk (squoChar :: (escChars s.data ++ [squoChar]))) = some s
  simp [sqlUnescape, sqlLexBody_escChars]

theorem checkEntry_of_lookup_none (d : List (String × String)) (p : String × Value)
    (h : d.lookup p.1 = none) : checkEntry d p = .error .schemaError := by
  simp [checkEntry, h]

theorem checkList_ok_of_forall (d : List (String × String)) (l : List (String × Value))
    (h : ∀ p ∈ l, ∃ q, checkEntry d p = .ok q) :
    ∃ qs, checkList d l = .ok qs := by
  induction l with
  | nil => exact ⟨[], rfl⟩
  | cons p rest ih =>
      obtain ⟨q, hq⟩ := h p (by simp)
      obtain ⟨qs, hqs⟩ := ih fun p hp => h p (by simp [hp])
      exact ⟨q :: qs, by simp [checkList, hq, hqs]⟩

theorem data_nil_iff (s : String) : s.data = [] ↔ s = "" := by
  constructor
  · intro h; exact String.ext h
  · intro h; rw [h]

theorem checkEntry_ne_schemaError (d : List (String × String)) (p : String × Value)
    (h : d.lookup p.1 ≠ none) : checkEntry d p ≠ .error .schemaError := by
  cases hl : d.lookup p.1 with
  | none => exact absurd hl h
  | some ty =>
      by_cases hty : ty = "character varying"
      · subst hty
        cases hv : p.2 with
        | vstr s =>
            cases hd : s.data with
            | nil => simp [checkEntry, hl, hv, hd]
            | cons c cs => simp [checkEntry, hl, hv, hd]
        | vint n => simp [checkEntry, hl, hv]
        | vbin b => simp [checkEntry, hl, hv]
      · simp [checkEntry, hl, hty]

theorem checkEntry_ne_indexError (d : List (String × String)) (p : String × Value)
    (h : ∀ s, p.2 = .vstr s → d.lookup p.1 = some "character varying" → s ≠ "") :
    checkEntry d p ≠ .error .indexError := by
  cases hl : d.lookup p.1 with
  | none => simp [checkEntry, hl]
  | some ty =>
      by_cases hty : ty = "character varying"
      · subst hty
        cases hv : p.2 with
        | vstr s =>
            cases hd : s.data with
            | nil => exact absurd ((data_nil_iff s).mp hd) (h s hv hl)
            | cons c cs => simp [checkEntry, hl, hv, hd]
        | vint n => simp [checkEntry, hl, hv]
        | vbin b => simp [checkEntry, hl, hv]
      · simp [checkEntry, hl, hty]

theorem checkEntry_vstr_empty (d : List (String × String)) (name : String)
    (h : d.lookup name = some "character varying") :
    checkEntry d (name, .vstr "") = .error .indexError := by
  simp [checkEntry, h]

/-- What a successful `checkEntry` did to one entry. -/
theorem checkEntry_ok_spec (d : List (String × String)) (p q : String × Value)
    (h : checkEntry d p = .ok q) :
    q.1 = p.1 ∧
      ((d.lookup p.1 = some "character varying" →
          ∃ s, p.2 = .vstr s ∧ s ≠ "" ∧ q.2 = .vstr (wrapQuotes s)) ∧
        (∀ ty, d.lookup p.1 = some ty → ty ≠ "character varying" → q = p)) := by
  cases hl : d.lookup p.1 with
  | none => simp [checkEntry, hl] at h
  | some ty =>
      by_cases hty : ty = "character varying"
      · subst hty
        cases hv : p.2 with
        | vstr s =>
            cases hd : s.data with
            | nil => simp [checkEntry, hl, hv, hd] at h
            | cons c cs =>
                simp only [checkEntry, hl, hv, hd] at h
                have hq : q = (p.1, .vstr (wrapQuotes s)) := by
                  cases h
                  rfl
                subst hq
                refine ⟨rfl, fun _ => ⟨s, rfl, ?_, rfl⟩,
                  fun ty2 hsome hne => absurd (Option.some.inj hsome).symm hne⟩
                intro hs
                rw [hs] at hd
                simp at hd
        | vint n => simp [checkEntry, hl, hv] at h
        | vbin b => simp [checkEntry, hl, hv] at h
      · have hq : q = p := by simp [checkEntry, hl, hty] at h; exact h.symm
        subst hq
        exact ⟨rfl, fun hcv => absurd (Option.some.inj hcv) hty, fun _ _ _ => rfl⟩

theorem checkList_append (d : List (String × String)) (l1 l2 : List (String × Value)) :
    checkList d (l1 ++ l2) =
      match checkList d l1 with
      | .error e => .error e
      | .ok q1 =>
          match checkList d l2 with
          | .error e => .error e
          | .ok q2 => .ok (q1 ++ q2) := by
  induction l1 with
  | nil => cases h : checkList d l2 <;> simp [checkList, h]
  | cons p rest ih =>
      simp only [List.cons_append, checkList, List.append_eq]
      rw [ih]
      cases checkEntry d p with
      | error e => rfl
      | ok q => cases checkList d rest <;> cases checkList d l2 <;> simp

theorem checkList_ok_forall₂ (d : List (String × String)) :
    ∀ values checked, checkList d values = .ok checked →
      List.Forall₂ (fun p q => checkEntry d p = .ok q) values checked := by
  intro values
  induction values with
  | nil => intro checked h; cases h; exact List.Forall₂.nil
  | cons p rest ih =>
      intro checked h
      unfold checkList at h
      cases hp : checkEntry d p with
      | error e => rw [hp] at h; exact absurd h (by simp)
      | ok q =>
          rw [hp] at h
          cases hr : checkList d rest with
          | error e => rw [hr] at h; exact absurd h (by simp)
          | ok qs =>
              rw [hr] at h
              cases h
              exact List.Forall₂.cons hp (ih qs hr)

theorem forall₂_get? {α β : Type} {R : α → β → Prop} :
    ∀ {l1 : List α} {l2 : List β}, List.Forall₂ R l1 l2 →
      ∀ i p q, l1.get? i = some p → l2.get? i = some q → R p q := by
  intro l1 l2 h
  induction h with
  | nil => intro i p q hp _; simp at hp
  | cons hr _ ih =>
      intro i p q hp hq
      cases i with
      | zero => simp at hp hq; rw [← hp, ← hq]; exact hr
      | succ n => exact ih n p q (by simpa using hp) (by simpa using hq)

theorem wrapBack_wrapFront_head_last (l : List Char) (hl : l ≠ []) :
    (wrapBack (wrapFront l)).head? = some squoChar ∧
      (wrapBack (wrapFront l)).getLast? = some squoChar := by
  have hfrontNil : wrapFront l ≠ [] := by
    unfold wrapFront
    by_cases h1 : l.head? = some squoChar
    · rw [if_pos h1]; exact hl
    · rw [if_neg h1]; simp
  have hfrontHead : (wrapFront l).head? = some squoChar := by
    unfold wrapFront
    by_cases h1 : l.head? = some squoChar
    · rw [if_pos h1]; exact h1
    · rw [if_neg h1]; rfl
  constructor
  · unfold wrapBack
    by_cases h2 : (wrapFront l).getLast? = some squoChar
    · rw [if_pos h2]; exact hfrontHead
    · rw [if_neg h2]
      cases hf : wrapFront l with
      | nil => exact absurd hf hfrontNil
      | cons c cs => rw [hf] at hfrontHead; simpa using hfrontHead
  · unfold wrapBack
    by_cases h2 : (wrapFront l).getLast? = some squoChar
    · rw [if_pos h2]; exact h2
    · rw [if_neg h2]; exact List.getLast?_concat _

theorem wrapQuotes_head_last (s : String) (hs : s ≠ "") :
    (wrapQuotes s).data.head? = some squoChar ∧
      (wrapQuotes s).data.getLast? = some squoChar := by
  have hd : s.data ≠ [] := fun h => hs ((data_nil_iff s).mp h)
  exact wrapBack_wrapFront_head_last s.data hd

/-- C1: the spec's YOLO materialize phase is right about the grouping the
code computes (two rows sharing image identifier 1 accumulate exactly two
space-joined label lines, each with a trailing newline), but the label
file is never written: with at least one fetched row the image-download
loop calls `_download_image` with two arguments (line 228) while its
signature takes one (line 271), so `_download_data_yolo` raises
`TypeError` before the label-writing loop runs. -/
theorem yolo_materialize_arity_bug :
    buildYolo [[.vint 1, .vstr "a.png", .vint 5], [.vint 1, .vstr "a.png", .vint 7]]
        ["cls"] [("image_id", 0), ("filepath", 1), ("cls", 2)] "image_id"
      = some ([(.vint 1, "a.png")], [(.vint 1, "5\n7\n")])
    ∧ downloadDataYolo [[.vint 1, .vstr "a.png", .vint 5], [.vint 1, .vstr "a.png", .vint 7]]
        ["cls"] [("image_id", 0), ("filepath", 1), ("cls", 2)] "out" "image_id"
      = .error .typeError := by
  constructor <;> rfl

/-- C3 counterexample: `join_and_download_data` does NOT prepend the join
statement to the caller-supplied filter sequence: with the filter list
`["F"]` the resulting sequence is `["F", join]`, not `[join, "F"]`, so
the join statement is executed after the caller's filters. -/
theorem join_filter_prepend_cex :
    joinAndDownloadFilters "a" "b" "i" ["F"] = ["F", joinStatement "a" "b" "i"]
    ∧ joinAndDownloadFilters "a" "b" "i" ["F"] ≠ [joinStatement "a" "b" "i", "F"] := by
  constructor
  · rfl
  · decide

/-- C3 (amended): `join_and_download_data` computes the temporary table
name deterministically from the two source table names, APPENDS the
DROP-IF-EXISTS plus SELECT-INTO-JOIN statement to the filter sequence
(so the join statement is executed after the caller's filter statements)
and delegates to the single-table export; when the export returns without
raising, it afterwards drops the temporary table and commits, but an
exception propagating out of the export (the invalid-label-column assert
or anything `_download_data_yolo` raises) skips the drop and the final
commit. -/
theorem join_and_download_spec (imgs lbls imageId : String) (filterSql : List String)
    (records : List (List Value)) (columnNames : List (String × Nat))
    (labelColumnNames : List String) (outputPath formatType : String) :
    tempTableName imgs lbls = imgs ++ "_" ++ lbls ++ "_tmp"
    ∧ joinAndDownloadFilters imgs lbls imageId filterSql
        = filterSql ++ [joinStatement imgs lbls imageId]
    ∧ (downloadDataOutcome records columnNames labelColumnNames outputPath formatType imageId
          = none →
        joinAndDownloadRun imgs lbls imageId filterSql records columnNames labelColumnNames
            outputPath formatType
          = (filterSql.map DbAction.exec
              ++ [.exec (joinStatement imgs lbls imageId), .commitAll,
                  .exec ("SELECT * FROM " ++ tempTableName imgs lbls),
                  .exec ("DROP TABLE " ++ tempTableName imgs lbls), .commitAll], none))
    ∧ (∀ e, downloadDataOutcome records columnNames labelColumnNames outputPath formatType imageId
          = some e →
        joinAndDownloadRun imgs lbls imageId filterSql records columnNames labelColumnNames
            outputPath formatType
          = (filterSql.map DbAction.exec
              ++ [.exec (joinStatement imgs lbls imageId), .commitAll,
                  .exec ("SELECT * FROM " ++ tempTableName imgs lbls)], some e)) := by
  refine ⟨rfl, rfl, ?_, ?_⟩
  · intro h
    simp [joinAndDownloadRun, downloadDataRun, h, joinAndDownloadFilters]
  · intro e h
    simp [joinAndDownloadRun, downloadDataRun, h, joinAndDownloadFilters]

theorem join_and_download_spec_witness :
    (downloadDataOutcome [] [("image_id", 0), ("filepath", 1), ("cls", 2)] ["cls"]
          "out" "yolo" "image_id" = none
      ∧ joinAndDownloadRun "a" "b" "image_id" ["F"] []
            [("image_id", 0), ("filepath", 1), ("cls", 2)] ["cls"] "out" "yolo"
          = (["F"].map DbAction.exec
              ++ [.exec (joinStatement "a" "b" "image_id"), .commitAll,
                  .exec ("SELECT * FROM " ++ tempTableName "a" "b"),
                  .exec ("DROP TABLE " ++ tempTableName "a" "b"), .commitAll], none))
    ∧ (downloadDataOutcome [[.vint 1, .vstr "a.png", .vint 5]]
          [("image_id", 0), ("filepath", 1), ("cls", 2)] ["cls"] "out" "yolo" "image_id"
        = some .typeError
      ∧ joinAndDownloadRun "a" "b" "image_id" ["F"] [[.vint 1, .vstr "a.png", .vint 5]]
            [("image_id", 0), ("filepath", 1), ("cls", 2)] ["cls"] "out" "yolo"
          = (["F"].map DbAction.exec
              ++ [.exec (joinStatement "a" "b" "image_id"), .commitAll,
                  .exec ("SELECT * FROM " ++ tempTableName "a" "b")], some .typeError)) :=
  ⟨⟨rfl, (join_and_download_spec "a" "b" "image_id" ["F"] []
        [("image_id", 0), ("filepath", 1), ("cls", 2)] ["cls"] "out" "yolo").2.2.1 rfl⟩,
    rfl, (join_and_download_spec "a" "b" "image_id" ["F"] [[.vint 1, .vstr "a.png", .vint 5]]
        [("image_id", 0), ("filepath", 1), ("cls", 2)] ["cls"] "out" "yolo").2.2.2
      .typeError rfl⟩

/-- C10: `join_and_download_data` appends the join statement to the
caller's filter list in place, leaving it one element longer; successive
calls that omit the filter argument share Python's once-evaluated default
list, so after `n` such calls the default list holds `n` copies of the
join statement, and whatever the export then does, the `n+1`-st call
begins by re-executing all `n` earlier join statements before its own. -/
theorem join_filter_list_mutation (imgs lbls imageId : String) (filterSql : List String) :
    (joinAndDownloadFilters imgs lbls imageId filterSql).length = filterSql.length + 1
    ∧ (∀ n, sharedDefaultAfter imgs lbls imageId n
        = List.replicate n (joinStatement imgs lbls imageId))
    ∧ (∀ n records columnNames labelColumnNames outputPath formatType,
        (joinAndDownloadRun imgs lbls imageId (sharedDefaultAfter imgs lbls imageId n)
            records columnNames labelColumnNames outputPath formatType).1.take (n + 1)
          = (List.replicate (n + 1) (joinStatement imgs lbls imageId)).map DbAction.exec) := by
  have hrep : ∀ n, sharedDefaultAfter imgs lbls imageId n
      = List.replicate n (joinStatement imgs lbls imageId) := by
    intro n
    induction n with
    | zero => rfl
    | succ m ih =>
        rw [show sharedDefaultAfter imgs lbls imageId (m + 1)
            = joinAndDownloadFilters imgs lbls imageId (sharedDefaultAfter imgs lbls imageId m) from rfl,
          ih, joinAndDownloadFilters, List.replicate_succ' m]
  refine ⟨by simp [joinAndDownloadFilters], hrep,
    fun n records columnNames labelColumnNames outputPath formatType => ?_⟩
  rw [hrep n]
  have hfil : joinAndDownloadFilters imgs lbls imageId
      (List.replicate n (joinStatement imgs lbls imageId))
      = List.replicate (n + 1) (joinStatement imgs lbls imageId) := by
    rw [joinAndDownloadFilters, List.replicate_succ' n]
  have hlen : ((List.replicate (n + 1) (joinStatement imgs lbls imageId)).map
      DbAction.exec).length = n + 1 := by simp
  cases houtcome : downloadDataOutcome records columnNames labelColumnNames outputPath
      formatType imageId with
  | none =>
      simp only [joinAndDownloadRun, downloadDataRun, hfil, houtcome, List.append_assoc]
      rw [List.take_left' hlen]
  | some e =>
      simp only [joinAndDownloadRun, downloadDataRun, hfil, houtcome]
      rw [List.take_left' hlen]

theorem checkList_ne_schemaError (d : List (String × String)) (l : List (String × Value))
    (h : ∀ p ∈ l, d.lookup p.1 ≠ none) :
    checkList d l ≠ .error .schemaError := by
  induction l with
  | nil => simp [checkList]
  | cons p rest ih =>
      intro hcontra
      unfold checkList at hcontra
      cases hp : checkEntry d p with
      | error e =>
          rw [hp] at hcontra
          cases hcontra
          exact checkEntry_ne_schemaError d p (h p (by simp)) hp
      | ok q =>
          rw [hp] at hcontra
          cases hr : checkList d rest with
          | error e =>
              rw [hr] at hcontra
              cases hcontra
              exact ih (fun p hp2 => h p (by simp [hp2])) hr
          | ok qs => rw [hr] at hcontra; cases hcontra

theorem checkList_ne_indexError (d : List (String × String)) (l : List (String × Value))
    (h : ∀ p ∈ l, ∀ s, p.2 = .vstr s → d.lookup p.1 = some "character varying" → s ≠ "") :
    checkList d l ≠ .error .indexError := by
  induction l with
  | nil => simp [checkList]
  | cons p rest ih =>
      intro hcontra
      unfold checkList at hcontra
      cases hp : checkEntry d p with
      | error e =>
          rw [hp] at hcontra
          cases hcontra
          exact checkEntry_ne_indexError d p (h p (by simp)) hp
      | ok q =>
          rw [hp] at hcontra
          cases hr : checkList d rest with
          | error e =>
              rw [hr] at hcontra
              cases hcontra
              exact ih (fun p hp2 => h p (by simp [hp2])) hr
          | ok qs => rw [hr] at hcontra; cases hcontra

theorem checkSchema_ok_checkList (tables : List String) (schema : List Column)
    (tableName : String) (values checked : List (String × Value))
    (h : checkSchema tables schema tableName values = .ok checked) :
    checkList (schemaDict schema) values = .ok checked := by
  unfold checkSchema at h
  by_cases ht : tableName ∈ tables
  · rwa [if_pos ht] at h
  · rw [if_neg ht] at h; exact absurd h (by simp)

/-- C2 counterexample: for a `character varying` column, the caller's
string `"abc"` is first quote-wrapped in place by `_check_schema`, so the
generated INSERT stores (after SQL unescaping) the quote-wrapped value
and not the string the caller supplied. -/
theorem insert_varchar_roundtrip_cex :
    (insert_row ["t"] [⟨"name", "character varying", some 50⟩] ⟨[], [], []⟩ "t"
        [("name", .vstr "abc")]).2 = .ok [("name", .vstr (squo ++ "abc" ++ squo))]
    ∧ sqlUnescape (serializeValue (.vstr (squo ++ "abc" ++ squo)))
        = some (squo ++ "abc" ++ squo)
    ∧ squo ++ "abc" ++ squo ≠ "abc" := by
  refine ⟨rfl, rfl, by decide⟩

/-- C2 (amended): the `insert_row` serialization (enclose in quotes,
double internal quotes) round-trips exactly through SQL unescaping, so
the stored value equals the value present in the dict AFTER
`_check_schema` ran: the caller's string itself for a string value of a
column of any type other than `character varying`, but the caller's
string with quote delimiters added on the missing sides for a
`character varying` column. -/
theorem insert_serialization_roundtrip (tables : List String) (schema : List Column)
    (st : PGState) (tableName : String) (values checked : List (String × Value))
    (h : (insert_row tables schema st tableName values).2 = .ok checked) :
    ∀ i name s, values.get? i = some (name, .vstr s) →
      ∃ q, checked.get? i = some q ∧ q.1 = name
        ∧ ((schemaDict schema).lookup name = some "character varying" →
            sqlUnescape (serializeValue q.2) = some (wrapQuotes s))
        ∧ (∀ ty, (schemaDict schema).lookup name = some ty →
            ty ≠ "character varying" →
            sqlUnescape (serializeValue q.2) = some s) := by
  have hcs : checkSchema tables schema tableName values = .ok checked := by
    unfold insert_row at h
    cases hc : checkSchema tables schema tableName values with
    | error e => rw [hc] at h; simp at h
    | ok c => rw [hc] at h; simp at h; rw [← h]
  have hlist := checkSchema_ok_checkList tables schema tableName values checked hcs
  have hf := checkList_ok_forall₂ _ _ _ hlist
  intro i name s hv
  have hi : i < values.length := by
    by_contra hge
    rw [List.get?_eq_none.mpr (le_of_not_lt hge)] at hv
    exact absurd hv (by simp)
  have hic : i < checked.length := hf.length_eq ▸ hi
  obtain ⟨q, hqi⟩ : ∃ q, checked.get? i = some q := ⟨checked.get ⟨i, hic⟩, List.get?_eq_get hic⟩
  have hentry : checkEntry (schemaDict schema) (name, .vstr s) = .ok q :=
    forall₂_get? hf i (name, .vstr s) q hv hqi
  obtain ⟨hq1, hvar, hother⟩ := checkEntry_ok_spec _ _ _ hentry
  refine ⟨q, hqi, hq1, ?_, ?_⟩
  · intro hcv
    obtain ⟨s2, hs2, _, hq2⟩ := hvar hcv
    have hss : s = s2 := by cases hs2; rfl
    rw [hq2, ← hss]
    exact sqlUnescape_serializeValue _
  · intro ty hty hne
    rw [hother ty hty hne]
    exact sqlUnescape_serializeValue s

theorem insert_serialization_roundtrip_witness :
    ((insert_row ["t"] [⟨"name", "character varying", some 50⟩] ⟨[], [], []⟩ "t"
        [("name", .vstr "abc")]).2 = .ok [("name", .vstr (squo ++ "abc" ++ squo))])
    ∧ (∀ i name s,
        [("name", Value.vstr "abc")].get? i = some (name, .vstr s) →
        ∃ q, [("name", Value.vstr (squo ++ "abc" ++ squo))].get? i = some q ∧ q.1 = name
          ∧ ((schemaDict [⟨"name", "character varying", some 50⟩]).lookup name
                = some "character varying" →
              sqlUnescape (serializeValue q.2) = some (wrapQuotes s))
          ∧ (∀ ty, (schemaDict [⟨"name", "character varying", some 50⟩]).lookup name = some ty →
              ty ≠ "character varying" →
              sqlUnescape (serializeValue q.2) = some s)) :=
  ⟨rfl, insert_serialization_roundtrip ["t"] [⟨"name", "character varying", some 50⟩]
    ⟨[], [], []⟩ "t" [("name", .vstr "abc")] [("name", .vstr (squo ++ "abc" ++ squo))] rfl⟩
/-- C8: after a successful `_check_schema(table, values)`, every entry
whose column is typed `character varying` has been replaced (in the
caller's mapping) by its quote-wrapped value — which starts and ends with
a quote delimiter, quotes having been added exactly on the sides that
lacked them — and every entry for a column of any other type is
unchanged. -/
theorem check_schema_normalization (tables : List String) (schema : List Column)
    (tableName : String) (values checked : List (String × Value))
    (h : checkSchema tables schema tableName values = .ok checked) :
    checked.length = values.length
    ∧ ∀ i p q, values.get? i = some p → checked.get? i = some q →
        q.1 = p.1
        ∧ ((schemaDict schema).lookup p.1 = some "character varying" →
            ∃ s, p.2 = .vstr s ∧ q.2 = .vstr (wrapQuotes s)
              ∧ (wrapQuotes s).data.head? = some squoChar
              ∧ (wrapQuotes s).data.getLast? = some squoChar)
        ∧ (∀ ty, (schemaDict schema).lookup p.1 = some ty →
            ty ≠ "character varying" → q = p) := by
  have hlist := checkSchema_ok_checkList tables schema tableName values checked h
  have hf := checkList_ok_forall₂ _ _ _ hlist
  refine ⟨hf.length_eq.symm, fun i p q hp hq => ?_⟩
  have hentry : checkEntry (schemaDict schema) p = .ok q := forall₂_get? hf i p q hp hq
  obtain ⟨hq1, hvar, hother⟩ := checkEntry_ok_spec _ _ _ hentry
  refine ⟨hq1, fun hcv => ?_, hother⟩
  obtain ⟨s, hs, hne, hq2⟩ := hvar hcv
  obtain ⟨hh, hl⟩ := wrapQuotes_head_last s hne
  exact ⟨s, hs, hq2, hh, hl⟩

theorem check_schema_normalization_witness :
    (checkSchema ["t"] [⟨"name", "character varying", some 50⟩, ⟨"n", "integer", none⟩] "t"
        [("name", .vstr "abc"), ("n", .vint 7)]
      = .ok [("name", .vstr (squo ++ "abc" ++ squo)), ("n", .vint 7)])
    ∧ ([("name", Value.vstr (squo ++ "abc" ++ squo)), ("n", Value.vint 7)].length
        = [("name", Value.vstr "abc"), ("n", Value.vint 7)].length
      ∧ ∀ i p q, [("name", Value.vstr "abc"), ("n", Value.vint 7)].get? i = some p →
          [("name", Value.vstr (squo ++ "abc" ++ squo)), ("n", Value.vint 7)].get? i = some q →
          q.1 = p.1
          ∧ ((schemaDict [⟨"name", "character varying", some 50⟩, ⟨"n", "integer", none⟩]).lookup p.1
                = some "character varying" →
              ∃ s, p.2 = .vstr s ∧ q.2 = .vstr (wrapQuotes s)
                ∧ (wrapQuotes s).data.head? = some squoChar
                ∧ (wrapQuotes s).data.getLast? = some squoChar)
          ∧ (∀ ty, (schemaDict [⟨"name", "character varying", some 50⟩, ⟨"n", "integer", none⟩]).lookup p.1
                = some ty → ty ≠ "character varying" → q = p)) :=
  ⟨rfl, check_schema_normalization ["t"]
    [⟨"name", "character varying", some 50⟩, ⟨"n", "integer", none⟩] "t"
    [("name", .vstr "abc"), ("n", .vint 7)]
    [("name", .vstr (squo ++ "abc" ++ squo)), ("n", .vint 7)] rfl⟩

/-- C9: supplying the empty string as the value of a `character varying`
column makes `_check_schema` fail with `IndexError` (the `new_val[0]`
subscript), not `SchemaError`; and whenever every string value supplied
for a `character varying` column is non-empty, `IndexError` is never
raised, so non-emptiness of such values is exactly the precondition under
which this error branch is unreachable. -/
theorem check_varchar_empty_precondition (tables : List String) (schema : List Column)
    (tableName : String) :
    (∀ pre post name v2, tableName ∈ tables →
        (∀ p ∈ pre, ∃ q, checkEntry (schemaDict schema) p = .ok q) →
        (schemaDict schema).lookup name = some "character varying" →
        v2 = Value.vstr "" →
        checkSchema tables schema tableName (pre ++ ((name, v2) :: post)) = .error .indexError
          ∧ PyErr.indexError ≠ PyErr.schemaError)
    ∧ (∀ values, (∀ p ∈ values, ∀ s, p.2 = Value.vstr s →
          (schemaDict schema).lookup p.1 = some "character varying" → s ≠ "") →
        checkSchema tables schema tableName values ≠ .error .indexError) := by
  constructor
  · intro pre post name v2 ht hpre hname hv2
    subst hv2
    refine ⟨?_, by decide⟩
    unfold checkSchema
    rw [if_pos ht, checkList_append]
    obtain ⟨qs, hqs⟩ := checkList_ok_of_forall _ _ hpre
    rw [hqs]
    have hhead : checkEntry (schemaDict schema) (name, Value.vstr "") = .error .indexError :=
      checkEntry_vstr_empty _ _ hname
    unfold checkList
    rw [hhead]
  · intro values hvals
    unfold checkSchema
    by_cases ht : tableName ∈ tables
    · rw [if_pos ht]
      exact checkList_ne_indexError _ _ hvals
    · rw [if_neg ht]
      simp

theorem check_varchar_empty_precondition_witness :
    ("t" ∈ ["t"]
      ∧ (∀ p ∈ ([] : List (String × Value)),
          ∃ q, checkEntry (schemaDict [⟨"name", "character varying", some 50⟩]) p = .ok q)
      ∧ (schemaDict [⟨"name", "character varying", some 50⟩]).lookup "name"
          = some "character varying"
      ∧ (checkSchema ["t"] [⟨"name", "character varying", some 50⟩] "t"
            ([] ++ (("name", Value.vstr "") :: [])) = .error .indexError
          ∧ PyErr.indexError ≠ PyErr.schemaError))
    ∧ ((∀ p ∈ [("name", Value.vstr "abc")], ∀ s, p.2 = Value.vstr s →
          (schemaDict [⟨"name", "character varying", some 50⟩]).lookup p.1
            = some "character varying" → s ≠ (""))
      ∧ checkSchema ["t"] [⟨"name", "character varying", some 50⟩] "t"
          [("name", Value.vstr "abc")] ≠ .error .indexError) :=
  ⟨⟨by decide, by simp, rfl,
      (check_varchar_empty_precondition ["t"] [⟨"name", "character varying", some 50⟩] "t").1
        [] [] "name" (Value.vstr "") (by decide) (by simp) rfl rfl⟩,
    by intro p hp s hs hlook; simp at hp; subst hp; cases hs; decide,
    (check_varchar_empty_precondition ["t"] [⟨"name", "character varying", some 50⟩] "t").2
      [("name", Value.vstr "abc")]
      (by intro p hp s hs hlook; simp at hp; subst hp; cases hs; decide)⟩
/-- C5 counterexample: a values mapping that contains the unknown key
`"bad"` but whose earlier entry supplies the empty string for a
`character varying` column makes `insert_row` fail with `IndexError`,
not `SchemaError`. -/
theorem insert_unknown_key_error_cex :
    (insert_row ["t"] [⟨"name", "character varying", some 50⟩] ⟨[], [], []⟩ "t"
        [("name", .vstr ""), ("bad", .vint 0)]).2 = .error .indexError
    ∧ PyErr.indexError ≠ PyErr.schemaError := by
  exact ⟨rfl, by decide⟩

/-- C5 (amended): `insert_row` fails with `SchemaError` and issues no
INSERT (the state is unchanged) whenever the first offending entry of the
values mapping, in insertion order, is a key that is not a column of the
table's live schema — i.e. all earlier entries pass the check; if an
earlier `character varying` entry fails its quote normalization, that
error (an index or type error) fires instead.  For mappings with all keys
in the schema of an existing table, `insert_row` never raises
`SchemaError`. -/
theorem insert_schema_error_spec (tables : List String) (schema : List Column)
    (st : PGState) (tableName : String) :
    (∀ pre post name v, tableName ∈ tables →
        (∀ p ∈ pre, ∃ q, checkEntry (schemaDict schema) p = .ok q) →
        (schemaDict schema).lookup name = none →
        insert_row tables schema st tableName (pre ++ ((name, v) :: post))
          = (st, .error .schemaError))
    ∧ (∀ values, tableName ∈ tables →
        (∀ p ∈ values, (schemaDict schema).lookup p.1 ≠ none) →
        (insert_row tables schema st tableName values).2 ≠ .error .schemaError) := by
  constructor
  · intro pre post name v ht hpre hname
    have hlist : checkList (schemaDict schema) (pre ++ ((name, v) :: post))
        = .error .schemaError := by
      rw [checkList_append]
      obtain ⟨qs, hqs⟩ := checkList_ok_of_forall _ _ hpre
      rw [hqs]
      have hhead : checkEntry (schemaDict schema) (name, v) = .error .schemaError :=
        checkEntry_of_lookup_none _ _ hname
      unfold checkList
      rw [hhead]
    unfold insert_row checkSchema
    rw [if_pos ht, hlist]
  · intro values ht hvals
    have hlist := checkList_ne_schemaError (schemaDict schema) values hvals
    unfold insert_row checkSchema
    rw [if_pos ht]
    cases hc : checkList (schemaDict schema) values with
    | error e =>
        intro hcontra
        simp at hcontra
        exact hlist (by rw [hc, hcontra])
    | ok c => simp

theorem insert_schema_error_spec_witness :
    ("t" ∈ ["t"]
      ∧ (∀ p ∈ ([] : List (String × Value)),
          ∃ q, checkEntry (schemaDict [⟨"name", "character varying", some 50⟩]) p = .ok q)
      ∧ (schemaDict [⟨"name", "character varying", some 50⟩]).lookup "bad" = none
      ∧ insert_row ["t"] [⟨"name", "character varying", some 50⟩] ⟨[], [], []⟩ "t"
          ([] ++ (("bad", Value.vint 0) :: []))
        = (⟨[], [], []⟩, .error .schemaError))
    ∧ ((∀ p ∈ [("name", Value.vstr "abc")],
          (schemaDict [⟨"name", "character varying", some 50⟩]).lookup p.1 ≠ none)
      ∧ (insert_row ["t"] [⟨"name", "character varying", some 50⟩] ⟨[], [], []⟩ "t"
            [("name", Value.vstr "abc")]).2 ≠ .error .schemaError) :=
  ⟨⟨by decide, by simp, rfl,
      (insert_schema_error_spec ["t"] [⟨"name", "character varying", some 50⟩]
          ⟨[], [], []⟩ "t").1 [] [] "bad" (Value.vint 0) (by decide) (by simp) rfl⟩,
    by intro p hp; simp at hp; subst hp; decide,
    (insert_schema_error_spec ["t"] [⟨"name", "character varying", some 50⟩]
        ⟨[], [], []⟩ "t").2 [("name", Value.vstr "abc")] (by decide)
      (by intro p hp; simp at hp; subst hp; decide)⟩

/-- C4: when the values mapping has a `filepath` entry naming a local
file that does not exist, `insert_row_with_image` fails with
`MissingFileError` before building the INSERT: the returned state — the
target table's statements and the pending-upload queue included — is the
caller's state, unchanged. -/
theorem insert_row_with_image_missing_file (fs : FileSystem) (tables : List String)
    (schema : List Column) (maxId : PGState → Nat) (st : PGState) (tableName : String)
    (values : List (String × Value)) (imageIdCol : String) (localPath : String)
    (hlp : values.lookup "filepath" = some (.vstr localPath))
    (hfs : fs localPath = none) :
    insert_row_with_image fs tables schema maxId st tableName values imageIdCol
      = (st, .error .missingFileError) := by
  simp [insert_row_with_image, hlp, hfs]

theorem insert_row_with_image_missing_file_witness :
    ([("filepath", Value.vstr "img/a.png")].lookup "filepath"
        = some (Value.vstr "img/a.png")
      ∧ (fun _ => (none : Option (List Nat))) "img/a.png" = none)
    ∧ insert_row_with_image (fun _ => none) ["test_images"] [⟨"filepath", "text", none⟩]
        (fun _ => 0) ⟨[], [], []⟩ "test_images" [("filepath", Value.vstr "img/a.png")] "image_id"
      = (⟨[], [], []⟩, .error .missingFileError) :=
  ⟨⟨rfl, rfl⟩,
    insert_row_with_image_missing_file (fun _ => none) ["test_images"]
      [⟨"filepath", "text", none⟩] (fun _ => 0) ⟨[], [], []⟩ "test_images"
      [("filepath", Value.vstr "img/a.png")] "image_id" "img/a.png" rfl rfl⟩
theorem flushUploads_all_some (fs : FileSystem) :
    ∀ (q : List Upload) (st : PGState), st.pending = [] →
      (∀ u ∈ q, (fs u.localFilepath).isSome) →
      flushUploads fs st q
        = ({ pending := [], durable := st.durable ++ uploadsStmts fs q,
             uncommittedImagePaths := st.uncommittedImagePaths }, .ok ()) := by
  intro q
  induction q with
  | nil =>
      intro st hp _
      cases st
      simp_all [flushUploads, uploadsStmts]
  | cons u rest ih =>
      intro st hp hall
      obtain ⟨b, hb⟩ := Option.isSome_iff_exists.mp (hall u (by simp))
      obtain ⟨p, d, qq⟩ := st
      have hp2 : p = [] := hp
      subst hp2
      have ihs := ih ⟨[], d ++ [uploadInsertStmt u.localFilepath b], qq⟩ rfl
        (fun v hv => hall v (by simp [hv]))
      simp [flushUploads, uploadImage, hb, execStmt, connCommit, ihs, uploadsStmts]
  
theorem flushUploads_first_fail (fs : FileSystem) :
    ∀ (pre : List Upload) (u : Upload) (post : List Upload) (st : PGState),
      st.pending = [] →
      (∀ v ∈ pre, (fs v.localFilepath).isSome) →
      fs u.localFilepath = none →
      flushUploads fs st (pre ++ u :: post)
        = ({ pending := [], durable := st.durable ++ uploadsStmts fs pre,
             uncommittedImagePaths := st.uncommittedImagePaths }, .error .fileNotFoundError) := by
  intro pre
  induction pre with
  | nil =>
      intro u post st hp _ hu
      cases st
      simp_all [flushUploads, uploadImage, uploadsStmts]
  | cons v rest ih =>
      intro u post st hp hall hu
      obtain ⟨b, hb⟩ := Option.isSome_iff_exists.mp (hall v (by simp))
      obtain ⟨p, d, qq⟩ := st
      have hp2 : p = [] := hp
      subst hp2
      have ihs := ih u post ⟨[], d ++ [uploadInsertStmt v.localFilepath b], qq⟩ rfl
        (fun w hw => hall w (by simp [hw])) hu
      simp [flushUploads, uploadImage, hb, execStmt, connCommit, ihs, uploadsStmts]

/-- C6: `commit` first makes the statements of the open transaction
durable, then flushes the pending-upload queue strictly in queue order,
each upload reading its file, executing its INSERT and performing its own
connection commit.  When every upload succeeds the queue is cleared;
when one fails, the first failure aborts the remaining flush, the error
propagates to the caller, the uploads flushed before the failure remain
durable (committed), and the queue is not cleared. -/
theorem commit_flush_spec (fs : FileSystem) (st : PGState) :
    ((∀ u ∈ st.uncommittedImagePaths, (fs u.localFilepath).isSome) →
      commit fs st
        = ({ pending := [],
             durable := st.durable ++ st.pending
               ++ uploadsStmts fs st.uncommittedImagePaths,
             uncommittedImagePaths := [] }, .ok ()))
    ∧ (∀ pre u post, st.uncommittedImagePaths = pre ++ u :: post →
        (∀ v ∈ pre, (fs v.localFilepath).isSome) →
        fs u.localFilepath = none →
        commit fs st
          = ({ pending := [],
               durable := st.durable ++ st.pending ++ uploadsStmts fs pre,
               uncommittedImagePaths := st.uncommittedImagePaths },
             .error .fileNotFoundError)) := by
  constructor
  · intro hall
    have h1 := flushUploads_all_some fs (connCommit st).uncommittedImagePaths (connCommit st) rfl
      (by simpa [connCommit] using hall)
    simp only [commit, h1]
    simp [connCommit]
  · intro pre u post hsplit hpre hu
    have h2 := flushUploads_first_fail fs pre u post (connCommit st) rfl hpre hu
    simp only [commit]
    rw [show (connCommit st).uncommittedImagePaths = pre ++ u :: post from hsplit, h2]
    simp [connCommit, hsplit]

theorem commit_flush_spec_witness :
    ((∀ u ∈ (PGState.mk [] [] [⟨"a.png", "r/a.png", "a.png"⟩]).uncommittedImagePaths,
        (((fun p => if p = "a.png" then some [1] else none) : FileSystem) u.localFilepath).isSome)
      ∧ commit (fun p => if p = "a.png" then some [1] else none)
          (PGState.mk [] [] [⟨"a.png", "r/a.png", "a.png"⟩])
        = ({ pending := [],
             durable := [] ++ [] ++ uploadsStmts (fun p => if p = "a.png" then some [1] else none)
               [⟨"a.png", "r/a.png", "a.png"⟩],
             uncommittedImagePaths := [] }, .ok ()))
    ∧ ((PGState.mk [] [] [⟨"a.png", "r/a.png", "a.png"⟩, ⟨"b.png", "r/b.png", "b.png"⟩]).uncommittedImagePaths
          = [⟨"a.png", "r/a.png", "a.png"⟩] ++ ⟨"b.png", "r/b.png", "b.png"⟩ :: []
      ∧ (∀ v ∈ [(⟨"a.png", "r/a.png", "a.png"⟩ : Upload)],
          (((fun p => if p = "a.png" then some [1] else none) : FileSystem) v.localFilepath).isSome)
      ∧ ((fun p => if p = "a.png" then some [1] else none) : FileSystem) "b.png" = none
      ∧ commit (fun p => if p = "a.png" then some [1] else none)
          (PGState.mk [] [] [⟨"a.png", "r/a.png", "a.png"⟩, ⟨"b.png", "r/b.png", "b.png"⟩])
        = ({ pending := [],
             durable := [] ++ [] ++ uploadsStmts (fun p => if p = "a.png" then some [1] else none)
               [⟨"a.png", "r/a.png", "a.png"⟩],
             uncommittedImagePaths := [⟨"a.png", "r/a.png", "a.png"⟩, ⟨"b.png", "r/b.png", "b.png"⟩] },
           .error .fileNotFoundError)) :=
  ⟨⟨by intro u hu; simp at hu; subst hu; rfl,
      (commit_flush_spec (fun p => if p = "a.png" then some [1] else none)
          (PGState.mk [] [] [⟨"a.png", "r/a.png", "a.png"⟩])).1
        (by intro u hu; simp at hu; subst hu; rfl)⟩,
    rfl,
    by intro v hv; simp at hv; subst hv; rfl,
    by simp,
    (commit_flush_spec (fun p => if p = "a.png" then some [1] else none)
        (PGState.mk [] [] [⟨"a.png", "r/a.png", "a.png"⟩, ⟨"b.png", "r/b.png", "b.png"⟩])).2
      [⟨"a.png", "r/a.png", "a.png"⟩] ⟨"b.png", "r/b.png", "b.png"⟩ [] rfl
      (by intro v hv; simp at hv; subst hv; rfl) (by simp)⟩

/-- C7: a `_download_image` lookup for a filepath not present in the
images table performs no write (and raises nothing — the function is
total); a lookup that finds a row appends exactly one fixed-format record
(id, the two resolution fields, the payload size, the filepath) to the
single hard-coded output file. -/
theorem download_image_spec (testImages : List ImageRow) (key : String) :
    ((∀ r ∈ testImages, r.filepath ≠ key) → downloadImage testImages key = [])
    ∧ (∀ row, testImages.find? (fun r => r.filepath = key) = some row →
        downloadImage testImages key = [(outputFileName, downloadImageRecord row)]) := by
  constructor
  · intro h
    have hnone : testImages.find? (fun r => r.filepath = key) = none := by
      rw [List.find?_eq_none]
      intro x hx
      simpa using h x hx
    simp [downloadImage, hnone]
  · intro row hrow
    simp [downloadImage, hrow]

theorem download_image_spec_witness :
    ((∀ r ∈ [ImageRow.mk (.vint 3) (.vint 100) (.vint 200) (.vint 4) "p.png"],
        r.filepath ≠ "q.png")
      ∧ downloadImage [ImageRow.mk (.vint 3) (.vint 100) (.vint 200) (.vint 4) "p.png"] "q.png"
          = [])
    ∧ ([ImageRow.mk (.vint 3) (.vint 100) (.vint 200) (.vint 4) "p.png"].find?
          (fun r => r.filepath = "p.png")
        = some (ImageRow.mk (.vint 3) (.vint 100) (.vint 200) (.vint 4) "p.png")
      ∧ downloadImage [ImageRow.mk (.vint 3) (.vint 100) (.vint 200) (.vint 4) "p.png"] "p.png"
          = [(outputFileName,
              downloadImageRecord (ImageRow.mk (.vint 3) (.vint 100) (.vint 200) (.vint 4) "p.png"))]) :=
  ⟨⟨by intro r hr; simp at hr; subst hr; decide,
      (download_image_spec [ImageRow.mk (.vint 3) (.vint 100) (.vint 200) (.vint 4) "p.png"]
          "q.png").1 (by intro r hr; simp at hr; subst hr; decide)⟩,
    rfl,
    (download_image_spec [ImageRow.mk (.vint 3) (.vint 100) (.vint 200) (.vint 4) "p.png"]
        "p.png").2 (ImageRow.mk (.vint 3) (.vint 100) (.vint 200) (.vint 4) "p.png") rfl⟩
end PostgresDB2
